import Mathlib

/-!
Verification of the telemetry data-model core of an OpenTelemetry collector
fork, against its natural-language specification.

The development shallowly embeds the Go source:

* `internal/data/traceid.go` — the dual-mode (fixed / variable length)
  `TraceID` identifier and its marshal/unmarshal operations;
* `consumer/pdata/trace.go` — the `Traces` aggregate root, `NewTraces`,
  `FromOtlpProtoBytes`, `SpanCount`, and the `SpanStatus.SetCode` setter;
* `exporter/kafkaexporter/otlp_marshaller.go` — the native wire-format
  Kafka marshaller for traces.

Go byte slices and Go strings (which are byte sequences) are both embedded
as `List Nat`; Go's `string(bytes)` conversion is then the identity.
A Go pointer that may be nil is embedded as `Option`; a Go panic is the
`none` of an `Option` result; a Go `error` return is `Except GoErr`.
Mutation of a receiver becomes returning the updated value.
-/

/-- A Go byte slice / Go string, as a list of byte values. -/
abbrev GoBytes := List Nat

/-- A Go `error` value, carrying its message. -/
abbrev GoErr := GoBytes

deriving instance DecidableEq for Except

namespace OtelData

/-- `traceIDSize = 16` from traceid.go. -/
def traceIDSize : Nat := 16

/-- The Go struct `TraceID` from traceid.go: a fixed 16-byte array `id`,
an unlimited-size slice `idSlice`, and the mode flag `useIdSlice`.
The zero value of the array field is 16 zero bytes. -/
structure TraceID where
  id : GoBytes
  idSlice : GoBytes
  useIdSlice : Bool
  deriving Repr, DecidableEq

/-- The Go zero value `[16]byte{}`. -/
def zeroId16 : GoBytes := List.replicate traceIDSize 0

/-- `NewTraceID(bytes [16]byte)`: fixed mode, other fields Go zero values. -/
def NewTraceID (bytes : GoBytes) : TraceID :=
  { id := bytes, idSlice := [], useIdSlice := false }

/-- `NewTraceIDWithUnlimitedSize(bytes []byte)`: variable mode, array field
left at its zero value. -/
def NewTraceIDWithUnlimitedSize (bytes : GoBytes) : TraceID :=
  { id := zeroId16, idSlice := bytes, useIdSlice := true }

/-- A freshly declared `TraceID{}` (all fields zero values). -/
def freshTraceID : TraceID :=
  { id := zeroId16, idSlice := [], useIdSlice := false }

/-- `TraceID.IsEmpty`: variable mode checks the slice length, fixed mode
compares the array with the zero array. -/
def TraceID.IsEmpty (tid : TraceID) : Bool :=
  if tid.useIdSlice then tid.idSlice.length == 0 else tid.id == zeroId16

/-- Lower-case hex digit of a value below 16, as a byte ('0'–'9', 'a'–'f'). -/
def hexDigit (n : Nat) : Nat :=
  if n < 10 then 48 + n else 87 + n

/-- `hex.EncodeToString` over a byte sequence: two lower-case hex digit
bytes per input byte. -/
def hexEncode (bs : GoBytes) : GoBytes :=
  (bs.map (fun b => [hexDigit (b / 16), hexDigit (b % 16)])).flatten

/-- `TraceID.HexString`: empty string when empty; in variable mode the raw
slice bytes reinterpreted as a string (Go `string(tid.idSlice)`, identity
here); in fixed mode the hex encoding of the array. -/
def TraceID.HexString (tid : TraceID) : GoBytes :=
  if tid.IsEmpty then []
  else if tid.useIdSlice then tid.idSlice
  else hexEncode tid.id

/-- `TraceID.Size`: 0 when empty, else the active representation's length. -/
def TraceID.Size (tid : TraceID) : Nat :=
  if tid.IsEmpty then 0
  else if tid.useIdSlice then tid.idSlice.length
  else traceIDSize

/-- `TraceID.Equal`: in variable mode, length check plus element-wise
comparison of the two slices (exactly the Go loop); in fixed mode, array
equality. -/
def TraceID.Equal (tid that : TraceID) : Bool :=
  if tid.useIdSlice then tid.idSlice == that.idSlice
  else tid.id == that.id

/-- `TraceID.Bytes`: panics (`none`) in variable mode, else the array. -/
def TraceID.Bytes (tid : TraceID) : Option GoBytes :=
  if tid.useIdSlice then none else some tid.id

/-- Modelled from the spec: the helper `marshalBytes(dst, src)` of the
`internal/data` package is not among the provided sources; per the spec's
binary-marshal contract it writes the source bytes into the destination
buffer. We model the bytes written. -/
def marshalBytes (src : GoBytes) : GoBytes := src

/-- `TraceID.MarshalTo`: writes nothing when empty, else the active
representation's bytes (the destination buffer is abstracted away; the
result is the bytes written). -/
def TraceID.MarshalTo (tid : TraceID) : GoBytes :=
  if tid.IsEmpty then []
  else if tid.useIdSlice then marshalBytes tid.idSlice
  else marshalBytes tid.id

/-- `TraceID.Unmarshal`: zero-length data zeroes the fixed array (and
touches nothing else); data of length other than 16 sets variable mode and
copies into a fresh slice; data of length exactly 16 copies into the fixed
array (and touches nothing else). -/
def TraceID.Unmarshal (tid : TraceID) (data : GoBytes) : TraceID :=
  if data.length = 0 then { tid with id := zeroId16 }
  else if data.length ≠ traceIDSize then
    { tid with useIdSlice := true, idSlice := data }
  else { tid with id := data }

/-- The byte value of the double-quote character. -/
def quoteByte : Nat := 34

/-- Modelled from the spec: the helper `marshalJSON(id)` of the
`internal/data` package is not among the provided sources; per the spec's
identifier JSON encoding it produces the lower-case hex string of the
bytes, enclosed in quotes. -/
def marshalJSON (bs : GoBytes) : GoBytes :=
  quoteByte :: hexEncode bs ++ [quoteByte]

/-- `TraceID.MarshalJSON`: the two-character empty quoted string when
empty, else the quoted hex encoding of the active representation. -/
def TraceID.MarshalJSON (tid : TraceID) : GoBytes :=
  if tid.IsEmpty then [quoteByte, quoteByte]
  else if tid.useIdSlice then marshalJSON tid.idSlice
  else marshalJSON tid.id

/-- The `invalid length for ID` style error of the decode helpers. -/
def errInvalidIDLength : GoErr := []

/-- Value of a lower- or upper-case hex digit byte, if it is one. -/
def hexDigitValue (b : Nat) : Option Nat :=
  if 48 ≤ b ∧ b ≤ 57 then some (b - 48)
  else if 97 ≤ b ∧ b ≤ 102 then some (b - 87)
  else if 65 ≤ b ∧ b ≤ 70 then some (b - 55)
  else none

/-- Hex-decode a byte sequence of hex digit pairs; `none` on a stray
digit, an odd length is handled by the caller's length check. -/
def hexDecode : GoBytes → Option GoBytes
  | [] => some []
  | [_] => none
  | hi :: lo :: rest =>
    match hexDigitValue hi, hexDigitValue lo, hexDecode rest with
    | some h, some l, some bs => some ((16 * h + l) :: bs)
    | _, _, _ => none

/-- Strip one enclosing pair of double quotes, when present. -/
def stripQuotes (src : GoBytes) : GoBytes :=
  if 2 ≤ src.length ∧ src.head? = some quoteByte ∧
      src.getLast? = some quoteByte then
    (src.drop 1).dropLast
  else src

/-- Modelled from the spec: the helper `unmarshalJSON(dst, src)` of the
`internal/data` package is not among the provided sources; per the spec it
inverts the quoted-hex identifier encoding into the caller's destination
buffer: quotes are stripped, empty content leaves the destination as is,
and otherwise the hex digits are decoded into the destination, which must
have exactly the decoded length. Returns the destination's new contents,
or an error. -/
def unmarshalJSON (dst src : GoBytes) : Except GoErr GoBytes :=
  let s := stripQuotes src
  if s.length = 0 then .ok dst
  else if dst.length * 2 ≠ s.length then .error errInvalidIDLength
  else match hexDecode s with
    | some bs => .ok bs
    | none => .error errInvalidIDLength

/-- `TraceID.UnmarshalJSON`: data of length other than 16 (the raw JSON
length, quotes included) sets variable mode with a fresh slice of that
length and decodes into it; data of length exactly 16 zeroes the fixed
array and decodes into it. Returns the updated identifier and possibly an
error; on error the mode/field assignments made before the helper call are
kept. -/
def TraceID.UnmarshalJSON (tid : TraceID) (data : GoBytes) :
    Except GoErr Unit × TraceID :=
  if data.length ≠ traceIDSize then
    let dst := List.replicate data.length 0
    match unmarshalJSON dst data with
    | .ok bs => (.ok (), { tid with useIdSlice := true, idSlice := bs })
    | .error e => (.error e, { tid with useIdSlice := true, idSlice := dst })
  else
    match unmarshalJSON zeroId16 data with
    | .ok bs => (.ok (), { tid with id := bs })
    | .error e => (.error e, { tid with id := zeroId16 })

end OtelData

namespace Pdata

open OtelData

/-- Legacy `Status_DEPRECATED_STATUS_CODE_OK` of the wire protocol. -/
def deprecatedStatusCodeOk : Nat := 0

/-- Legacy `Status_DEPRECATED_STATUS_CODE_UNKNOWN_ERROR`. -/
def deprecatedStatusCodeUnknownError : Nat := 2

/-- `StatusCodeUnset = Status_STATUS_CODE_UNSET`. -/
def StatusCodeUnset : Nat := 0

/-- `StatusCodeOk = Status_STATUS_CODE_OK`. -/
def StatusCodeOk : Nat := 1

/-- `StatusCodeError = Status_STATUS_CODE_ERROR`. -/
def StatusCodeError : Nat := 2

/-- The wire protocol's span `Status` record: the new code, the legacy
numeric mirror field, and the message. -/
structure Status where
  code : Nat
  deprecatedCode : Nat
  message : GoBytes
  deriving Repr, DecidableEq

/-- `SpanStatus.SetCode`: writes the new code, then mirrors it into the
legacy field: Unset and Ok map to the legacy ok value, Error to the legacy
unknown-error value (the Go switch has no default branch). -/
def SpanStatus.SetCode (ms : Status) (v : Nat) : Status :=
  let ms := { ms with code := v }
  if v = StatusCodeUnset ∨ v = StatusCodeOk then
    { ms with deprecatedCode := deprecatedStatusCodeOk }
  else if v = StatusCodeError then
    { ms with deprecatedCode := deprecatedStatusCodeUnknownError }
  else ms

/-- A span record of the wire protocol, with the fields the spec's data
model names; only identifier and status fields are exercised here. -/
structure Span where
  traceId : TraceID
  spanId : TraceID
  parentSpanId : TraceID
  name : GoBytes
  kind : Nat
  startTimeUnixNano : Nat
  endTimeUnixNano : Nat
  traceState : GoBytes
  status : Status
  deriving Repr, DecidableEq

/-- An instrumentation-library descriptor plus its ordered span sequence. -/
structure InstrumentationLibrarySpans where
  instrumentationLibraryName : GoBytes
  spans : List Span
  deriving Repr, DecidableEq

/-- A resource descriptor (attribute set) plus its ordered sequence of
instrumentation-library groups. -/
structure ResourceSpans where
  resourceAttributes : List (GoBytes × GoBytes)
  instrumentationLibrarySpans : List InstrumentationLibrarySpans
  deriving Repr, DecidableEq

/-- `Traces`: a pointer to the root `[]*ResourceSpans` sequence. The
pointer of a zero-initialized `Traces` is nil (`none`); a constructed one
points at a sequence (`some`). -/
structure Traces where
  orig : Option (List ResourceSpans)
  deriving Repr, DecidableEq

/-- `NewTraces()`: a fresh root whose pointer is non-nil, pointing at a
zero-length sequence. -/
def NewTraces : Traces := ⟨some []⟩

/-- `ResourceSpansSlice.Len()` through the root view: dereferences the
root pointer (`none` = nil-pointer fault). -/
def Traces.resourceSpansLen (td : Traces) : Option Nat :=
  td.orig.map List.length

/-- `ResourceSpansSlice.Append()` through the root view: grows the owner's
storage by one zero-initialized element (`none` = nil-pointer fault). -/
def Traces.resourceSpansAppend (td : Traces) (rs : ResourceSpans) :
    Option Traces :=
  td.orig.map (fun l => ⟨some (l ++ [rs])⟩)

/-- A zero-initialized `ResourceSpans` element, as `Append` creates. -/
def emptyResourceSpans : ResourceSpans := ⟨[], []⟩

/-- `Traces.SpanCount` on a root sequence: the nested loops summing
`Spans().Len()` over every resource-group and instrumentation-library
group. -/
def spanCountList (rss : List ResourceSpans) : Nat :=
  rss.foldl
    (fun acc rs =>
      rs.instrumentationLibrarySpans.foldl
        (fun a ils => a + ils.spans.length) acc)
    0

/-- `Traces.SpanCount()`: dereferences the root pointer and sums
(`none` = nil-pointer fault on a zero-initialized root). -/
def Traces.SpanCount (td : Traces) : Option Nat :=
  td.orig.map spanCountList

/-- `Traces.FromOtlpProtoBytes(data)`, parametrized by the external
protobuf codec's `Unmarshal` (the decode of an `ExportTraceServiceRequest`
into its resource-spans sequence). A decode error is returned before the
root is touched; on success the root sequence is replaced entirely, which
dereferences the root pointer (`none` = the documented fatal fault on a
zero-initialized root). -/
def Traces.FromOtlpProtoBytes
    (decode : GoBytes → Except GoErr (List ResourceSpans))
    (td : Traces) (data : GoBytes) : Option (Except GoErr Unit × Traces) :=
  match decode data with
  | .error e => some (.error e, td)
  | .ok rs =>
    match td.orig with
    | none => none
    | some _ => some (.ok (), ⟨some rs⟩)

end Pdata

namespace KafkaExporter

open OtelData Pdata

/-- A sarama `ProducerMessage` as the marshaller fills it: key (a nil Go
slice — the absent key — is `none`), value bytes, and topic. -/
structure ProducerMessage where
  key : Option GoBytes
  value : GoBytes
  topic : GoBytes
  deriving Repr, DecidableEq

/-- The key computation of one loop iteration of
`otlpTracesPbMarshaller.Marshal`: it indexes the resource-group's first
instrumentation-library group and that group's first span without any
bounds guard (outer `none` = out-of-range panic); the key stays the nil
slice when the span's trace id is empty, else it is the trace id's hex
string. -/
def messageKey (rs : ResourceSpans) : Option (Option GoBytes) :=
  match rs.instrumentationLibrarySpans with
  | [] => none
  | ils :: _ =>
    match ils.spans with
    | [] => none
    | span :: _ =>
      some (if span.traceId.IsEmpty then none else some span.traceId.HexString)

/-- The loop of `otlpTracesPbMarshaller.Marshal` over the root sequence,
parametrized by the external codec's `Marshal` of a one-element
`ExportTraceServiceRequest`. Iteration order matches the Go loop: the key
(panicking when unguarded indexing is out of range), then the codec, whose
error aborts the loop and is returned. -/
def marshalLoop (enc : List ResourceSpans → Except GoErr GoBytes)
    (topic : GoBytes) :
    List ResourceSpans → Option (Except GoErr (List ProducerMessage))
  | [] => some (.ok [])
  | rs :: rest =>
    match messageKey rs with
    | none => none
    | some key =>
      match enc [rs] with
      | .error e => some (.error e)
      | .ok bts =>
        match marshalLoop enc topic rest with
        | none => none
        | some (.error e) => some (.error e)
        | some (.ok msgs) => some (.ok (⟨key, bts, topic⟩ :: msgs))

/-- `otlpTracesPbMarshaller.Marshal(traces, topic)`: runs the loop over
the dereferenced root sequence (`none` = panic, from unguarded indexing or
a nil root pointer). -/
def otlpTracesPbMarshal (enc : List ResourceSpans → Except GoErr GoBytes)
    (traces : Traces) (topic : GoBytes) :
    Option (Except GoErr (List ProducerMessage)) :=
  match traces.orig with
  | none => none
  | some rss => marshalLoop enc topic rss

/-- The implicit precondition of the native marshaller on one
resource-group: its first instrumentation-library group exists and holds
at least one span (the two unguarded `At(0)` calls stay in range). -/
def hasFirstSpan (rs : ResourceSpans) : Bool :=
  match rs.instrumentationLibrarySpans with
  | [] => false
  | ils :: _ => !ils.spans.isEmpty

/-- A span holding a given trace id, all other fields zero values. -/
def spanWithTraceId (tid : TraceID) : Span :=
  ⟨tid, freshTraceID, freshTraceID, [], 0, 0, 0, [], ⟨0, 0, []⟩⟩

/-- A resource-group whose single instrumentation-library group holds one
span with the given trace id. -/
def singleSpanGroup (tid : TraceID) : ResourceSpans :=
  ⟨[], [⟨[], [spanWithTraceId tid]⟩]⟩

end KafkaExporter

open OtelData Pdata KafkaExporter

/-- C2: `Equal` is representation-biased: when the receiver is in variable
mode it compares only the two variable byte sequences (both fixed arrays
are ignored, even when the argument is in fixed mode); otherwise it
compares the two fixed arrays. In particular a variable-mode identifier
built from the same logical bytes as a fixed-mode identifier is not
`Equal` to it. -/
theorem C2_equal_representation_biased (a b : TraceID) :
    (a.useIdSlice = true → a.Equal b = (a.idSlice == b.idSlice)) ∧
    (a.useIdSlice = false → a.Equal b = (a.id == b.id)) ∧
    (∀ bs : GoBytes, bs.length = traceIDSize →
      (NewTraceIDWithUnlimitedSize bs).Equal (NewTraceID bs) = false) := by
  refine ⟨fun h => ?_, fun h => ?_, fun bs hbs => ?_⟩
  · simp [TraceID.Equal, h]
  · simp [TraceID.Equal, h]
  · have hne : bs ≠ [] := by
      intro hnil
      rw [hnil] at hbs
      simp [traceIDSize] at hbs
    simp [TraceID.Equal, NewTraceIDWithUnlimitedSize, NewTraceID, hne]

/-- Witness for C2 at concrete identifiers: a variable-mode identifier of
two bytes against the fixed-mode zero identifier. -/
theorem C2_witness :
    (NewTraceIDWithUnlimitedSize [1, 2]).Equal (NewTraceID zeroId16) =
      ((NewTraceIDWithUnlimitedSize [1, 2]).idSlice == (NewTraceID zeroId16).idSlice) :=
  (C2_equal_representation_biased (NewTraceIDWithUnlimitedSize [1, 2])
    (NewTraceID zeroId16)).1 rfl

/-- C6: `Bytes()` on a variable-mode identifier is a panic (modelled as
`none`); on a fixed-mode identifier it returns the fixed array unchanged,
so under the fixed-mode precondition the fault branch is unreachable. -/
theorem C6_bytes_variable_mode_fault (tid : TraceID) :
    (tid.useIdSlice = true → tid.Bytes = none) ∧
    (tid.useIdSlice = false → tid.Bytes = some tid.id) := by
  constructor <;> intro h <;> simp [TraceID.Bytes, h]

/-- Witness for C6: the fault on a concrete variable-mode identifier and
the array return on a concrete fixed-mode identifier. -/
theorem C6_witness :
    (NewTraceIDWithUnlimitedSize [9]).Bytes = none ∧
    (NewTraceID zeroId16).Bytes = some (NewTraceID zeroId16).id :=
  ⟨(C6_bytes_variable_mode_fault (NewTraceIDWithUnlimitedSize [9])).1 rfl,
   (C6_bytes_variable_mode_fault (NewTraceID zeroId16)).2 rfl⟩

/-- C7: for every status value of the enumeration, `SetCode` writes the
new code and mirrors it into the legacy field — Unset and Ok write the
legacy ok value, Error writes the legacy unknown-error value — and leaves
the message untouched. -/
theorem C7_setcode_legacy_mirror (s : Status) (v : Nat)
    (hv : v = StatusCodeUnset ∨ v = StatusCodeOk ∨ v = StatusCodeError) :
    (SpanStatus.SetCode s v).code = v ∧
    (SpanStatus.SetCode s v).deprecatedCode =
      (if v = StatusCodeError then deprecatedStatusCodeUnknownError
       else deprecatedStatusCodeOk) ∧
    (SpanStatus.SetCode s v).message = s.message := by
  rcases hv with h | h | h <;> subst h <;>
    simp [SpanStatus.SetCode, StatusCodeUnset, StatusCodeOk, StatusCodeError,
      deprecatedStatusCodeOk, deprecatedStatusCodeUnknownError]

/-- Witness for C7: setting Error on a concrete status. -/
theorem C7_witness :
    (SpanStatus.SetCode ⟨1, 0, [104, 105]⟩ StatusCodeError).code = StatusCodeError ∧
    (SpanStatus.SetCode ⟨1, 0, [104, 105]⟩ StatusCodeError).deprecatedCode =
      (if StatusCodeError = StatusCodeError then deprecatedStatusCodeUnknownError
       else deprecatedStatusCodeOk) ∧
    (SpanStatus.SetCode ⟨1, 0, [104, 105]⟩ StatusCodeError).message =
      (⟨1, 0, [104, 105]⟩ : Status).message :=
  C7_setcode_legacy_mirror ⟨1, 0, [104, 105]⟩ StatusCodeError (Or.inr (Or.inr rfl))

/-- C9: a freshly constructed `Traces` has a present (non-nil) root
container of length zero: `ResourceSpans().Len()` is 0, `SpanCount()` is
0, and `Append` through the slice-view succeeds without further
initialization. -/
theorem C9_newtraces_initialized :
    NewTraces.orig ≠ none ∧
    NewTraces.resourceSpansLen = some 0 ∧
    NewTraces.SpanCount = some 0 ∧
    NewTraces.resourceSpansAppend emptyResourceSpans =
      some ⟨some [emptyResourceSpans]⟩ := by
  refine ⟨by simp [NewTraces], rfl, rfl, rfl⟩

/-- C1 fails as stated: a variable-mode identifier of exactly 16 bytes
(sixteen 'a' bytes) binary-marshals to those 16 raw bytes, which a fresh
identifier unmarshals into *fixed* mode; its hex string is then the
32-character hex encoding, not the 16 raw bytes the original returns. -/
theorem C1_counterexample :
    ¬ ((freshTraceID.Unmarshal
          (NewTraceIDWithUnlimitedSize (List.replicate 16 97)).MarshalTo).HexString
        = (NewTraceIDWithUnlimitedSize (List.replicate 16 97)).HexString) := by
  decide

/-- C1 amended: binary unmarshal of binary marshal into a fresh identifier
preserves the hex string for every well-formed identifier that is in fixed
mode, or in variable mode with a byte sequence whose length is not the
canonical fixed size 16. -/
theorem C1_binary_roundtrip_hexstring (tid : TraceID)
    (h16 : tid.id.length = traceIDSize)
    (h : tid.useIdSlice = false ∨ tid.idSlice.length ≠ traceIDSize) :
    (freshTraceID.Unmarshal tid.MarshalTo).HexString = tid.HexString := by
  by_cases hemp : tid.IsEmpty = true
  · have hm : tid.MarshalTo = [] := by simp [TraceID.MarshalTo, hemp]
    rw [hm]
    have hres : freshTraceID.Unmarshal [] = freshTraceID := by
      simp [TraceID.Unmarshal, freshTraceID, zeroId16]
    rw [hres]
    have h1 : freshTraceID.HexString = [] := by decide
    have h2 : tid.HexString = [] := by simp [TraceID.HexString, hemp]
    rw [h1, h2]
  · rw [Bool.not_eq_true] at hemp
    cases hu : tid.useIdSlice with
    | true =>
      have hlen : tid.idSlice.length ≠ traceIDSize := by
        rcases h with h | h
        · rw [hu] at h; exact absurd h (by simp)
        · exact h
      have hnz : tid.idSlice.length ≠ 0 := by
        intro h0
        have hc : tid.IsEmpty = true := by simp [TraceID.IsEmpty, hu, h0]
        rw [hc] at hemp; exact absurd hemp (by simp)
      have hm : tid.MarshalTo = tid.idSlice := by
        simp [TraceID.MarshalTo, hemp, hu, marshalBytes]
      rw [hm]
      have hres : freshTraceID.Unmarshal tid.idSlice =
          ⟨zeroId16, tid.idSlice, true⟩ := by
        simp [TraceID.Unmarshal, hnz, hlen, freshTraceID]
      rw [hres]
      have hres2 : (⟨zeroId16, tid.idSlice, true⟩ : TraceID).HexString
          = tid.idSlice := by
        simp [TraceID.HexString, TraceID.IsEmpty, hnz]
      rw [hres2]
      simp [TraceID.HexString, hemp, hu]
    | false =>
      have hm : tid.MarshalTo = tid.id := by
        simp [TraceID.MarshalTo, hemp, hu, marshalBytes]
      rw [hm]
      have hnz : tid.id.length ≠ 0 := by rw [h16]; simp [traceIDSize]
      have hres : freshTraceID.Unmarshal tid.id =
          ⟨tid.id, [], false⟩ := by
        simp [TraceID.Unmarshal, hnz, h16, freshTraceID, traceIDSize]
      rw [hres]
      have hzne : ¬ tid.id = zeroId16 := by
        intro hc
        have hc2 : tid.IsEmpty = true := by simp [TraceID.IsEmpty, hu, hc]
        rw [hc2] at hemp; exact absurd hemp (by simp)
      have hres2 : (⟨tid.id, [], false⟩ : TraceID).HexString
          = hexEncode tid.id := by
        simp [TraceID.HexString, TraceID.IsEmpty, hzne]
      rw [hres2]
      simp [TraceID.HexString, hemp, hu]

/-- Witness for the amended C1: round trip of a concrete non-empty
fixed-mode identifier (sixteen 0xAA bytes) preserves the hex string. -/
theorem C1_witness :
    (freshTraceID.Unmarshal
        (NewTraceID (List.replicate 16 170)).MarshalTo).HexString
      = (NewTraceID (List.replicate 16 170)).HexString :=
  C1_binary_roundtrip_hexstring (NewTraceID (List.replicate 16 170))
    (by decide) (Or.inl rfl)

/-- C3 fails as stated: binary-unmarshalling a zero-length input into a
variable-mode identifier holding bytes [1, 2, 3] leaves it in variable
mode and non-empty — the claimed reset to empty fixed mode does not
happen, because `Unmarshal` only zeroes the fixed array and never clears
the variable-mode flag or slice. -/
theorem C3_counterexample :
    ((NewTraceIDWithUnlimitedSize [1, 2, 3]).Unmarshal []).IsEmpty = false ∧
    ((NewTraceIDWithUnlimitedSize [1, 2, 3]).Unmarshal []).useIdSlice = true := by
  decide

/-- C3 amended: zero-length input zeroes only the fixed array, so an
identifier starting in fixed mode is reset to empty fixed mode, while one
starting in variable mode keeps its flag and slice; 16-byte input copies
into the fixed array (ending in fixed mode only if it started there);
any other non-zero length switches to variable mode with a fresh copy of
the input, whatever the starting mode. -/
theorem C3_unmarshal_cases (tid : TraceID) (data : GoBytes) :
    (tid.useIdSlice = false → data = [] →
      (tid.Unmarshal data).IsEmpty = true ∧
      (tid.Unmarshal data).useIdSlice = false) ∧
    (tid.useIdSlice = true → data = [] →
      (tid.Unmarshal data).useIdSlice = true ∧
      (tid.Unmarshal data).idSlice = tid.idSlice) ∧
    (data.length = traceIDSize →
      tid.Unmarshal data = ⟨data, tid.idSlice, tid.useIdSlice⟩) ∧
    (data ≠ [] → data.length ≠ traceIDSize →
      tid.Unmarshal data = ⟨tid.id, data, true⟩) := by
  refine ⟨fun hu hd => ?_, fun hu hd => ?_, fun hlen => ?_, fun hne hlen => ?_⟩
  · subst hd
    simp [TraceID.Unmarshal, TraceID.IsEmpty, hu]
  · subst hd
    simp [TraceID.Unmarshal, hu]
  · have hnz : data.length ≠ 0 := by rw [hlen]; simp [traceIDSize]
    simp [TraceID.Unmarshal, hnz, hlen, traceIDSize]
  · have hnz : data.length ≠ 0 := by simpa using hne
    simp [TraceID.Unmarshal, hnz, hlen]

/-- Witness for the amended C3: the three branches at concrete inputs —
a fixed-mode identifier fed zero-length input, a 16-byte input, and a
3-byte input. -/
theorem C3_witness :
    (((NewTraceID (List.replicate 16 7)).Unmarshal []).IsEmpty = true ∧
      ((NewTraceID (List.replicate 16 7)).Unmarshal []).useIdSlice = false) ∧
    ((NewTraceID (List.replicate 16 7)).Unmarshal (List.replicate 16 9) =
      ⟨List.replicate 16 9, (NewTraceID (List.replicate 16 7)).idSlice,
        (NewTraceID (List.replicate 16 7)).useIdSlice⟩) ∧
    ((NewTraceID (List.replicate 16 7)).Unmarshal [1, 2, 3] =
      ⟨(NewTraceID (List.replicate 16 7)).id, [1, 2, 3], true⟩) :=
  ⟨(C3_unmarshal_cases (NewTraceID (List.replicate 16 7)) []).1 rfl rfl,
   (C3_unmarshal_cases (NewTraceID (List.replicate 16 7))
      (List.replicate 16 9)).2.2.1 (by decide),
   (C3_unmarshal_cases (NewTraceID (List.replicate 16 7))
      [1, 2, 3]).2.2.2 (by decide) (by decide)⟩

/-- C4: the code contradicts the claimed JSON round trip. For the
fixed-mode identifier of sixteen 0xAA bytes, `MarshalJSON` yields the
34-byte quoted 32-character hex string; `UnmarshalJSON` compares that raw
JSON length 34 with the binary size 16, so it decodes into *variable*
mode with a fresh 34-byte slice, the hex helper rejects the length, an
error is returned, and the resulting hex string (34 zero bytes) differs
from the original. The true part of the claim also holds: length exactly
16 is the only input shape decoded into fixed mode. -/
theorem C4_json_roundtrip_broken :
    ((freshTraceID.UnmarshalJSON
        (NewTraceID (List.replicate 16 170)).MarshalJSON).2.HexString
      ≠ (NewTraceID (List.replicate 16 170)).HexString) ∧
    ((freshTraceID.UnmarshalJSON
        (NewTraceID (List.replicate 16 170)).MarshalJSON).1
      = Except.error errInvalidIDLength) ∧
    ((freshTraceID.UnmarshalJSON
        (NewTraceID (List.replicate 16 170)).MarshalJSON).2.useIdSlice = true) ∧
    ((freshTraceID.UnmarshalJSON
        (NewTraceID (List.replicate 16 170)).MarshalJSON).2.idSlice.length = 34) := by
  decide

/-- C5: on a constructed `Traces` root, a failing decode makes
`FromOtlpProtoBytes` return exactly the decode error with the prior
contents untouched, and a succeeding decode replaces the contents
entirely with the decoded sequence; neither path panics. -/
theorem C5_from_otlp_proto_bytes
    (decode : GoBytes → Except GoErr (List ResourceSpans))
    (td : Traces) (data : GoBytes) (hc : td.orig ≠ none) :
    (∀ e, decode data = .error e →
      Traces.FromOtlpProtoBytes decode td data = some (.error e, td)) ∧
    (∀ rs, decode data = .ok rs →
      Traces.FromOtlpProtoBytes decode td data = some (.ok (), ⟨some rs⟩)) := by
  constructor
  · intro e he
    simp [Traces.FromOtlpProtoBytes, he]
  · intro rs hrs
    obtain ⟨l, hl⟩ := Option.ne_none_iff_exists'.mp hc
    simp [Traces.FromOtlpProtoBytes, hrs, hl]

/-- Witness for C5: a decoder that fails on every input leaves a
one-element root untouched; a decoder that succeeds replaces it. -/
theorem C5_witness :
    (Traces.FromOtlpProtoBytes (fun _ => .error [7]) (⟨some [emptyResourceSpans]⟩)
        [1, 2] = some (.error [7], ⟨some [emptyResourceSpans]⟩)) ∧
    (Traces.FromOtlpProtoBytes (fun _ => .ok []) (⟨some [emptyResourceSpans]⟩)
        [1, 2] = some (.ok (), ⟨some []⟩)) :=
  ⟨(C5_from_otlp_proto_bytes (fun _ => .error [7]) (⟨some [emptyResourceSpans]⟩)
      [1, 2] (by simp)).1 [7] rfl,
   (C5_from_otlp_proto_bytes (fun _ => .ok []) (⟨some [emptyResourceSpans]⟩)
      [1, 2] (by simp)).2 [] rfl⟩

/-- A successful key computation exposes the resource-group's first
instrumentation-library group and its first span, and fixes the key to
that span's trace id (hex, or absent when empty). -/
theorem messageKey_some_spec (rs : ResourceSpans) (key : Option GoBytes)
    (hk : messageKey rs = some key) :
    ∃ ils ilsRest sp spRest,
      rs.instrumentationLibrarySpans = ils :: ilsRest ∧
      ils.spans = sp :: spRest ∧
      key = (if sp.traceId.IsEmpty then none else some sp.traceId.HexString) := by
  cases hils : rs.instrumentationLibrarySpans with
  | nil => simp [messageKey, hils] at hk
  | cons ils ilsRest =>
    cases hsp : ils.spans with
    | nil => simp [messageKey, hils, hsp] at hk
    | cons sp spRest =>
      simp only [messageKey, hils, hsp, Option.some.injEq] at hk
      exact ⟨ils, ilsRest, sp, spRest, rfl, hsp, hk.symm⟩

/-- The key computation panics exactly on resource-groups that violate
the first-span precondition. -/
theorem messageKey_none_iff (rs : ResourceSpans) :
    messageKey rs = none ↔ hasFirstSpan rs = false := by
  cases hils : rs.instrumentationLibrarySpans with
  | nil => simp [messageKey, hasFirstSpan, hils]
  | cons ils ilsRest =>
    cases hsp : ils.spans with
    | nil => simp [messageKey, hasFirstSpan, hils, hsp]
    | cons sp spRest => simp [messageKey, hasFirstSpan, hils, hsp]

/-- On success, the marshal loop yields one message per resource-group,
each keyed by the group's first span's trace id. -/
theorem marshalLoop_ok_spec (enc : List ResourceSpans → Except GoErr GoBytes)
    (topic : GoBytes) (rss : List ResourceSpans) :
    ∀ msgs : List ProducerMessage,
      marshalLoop enc topic rss = some (.ok msgs) →
      msgs.length = rss.length ∧
      ∀ i, i < rss.length →
        ∃ m rs ils ilsRest sp spRest,
          msgs[i]? = some m ∧ rss[i]? = some rs ∧
          rs.instrumentationLibrarySpans = ils :: ilsRest ∧
          ils.spans = sp :: spRest ∧
          m.key = (if sp.traceId.IsEmpty then none
                   else some sp.traceId.HexString) ∧
          m.topic = topic := by
  induction rss with
  | nil =>
    intro msgs h
    rw [marshalLoop] at h
    simp only [Option.some.injEq, Except.ok.injEq] at h
    subst h
    exact ⟨rfl, by intro i hi; exact absurd hi (by simp)⟩
  | cons rs rest ih =>
    intro msgs h
    rw [marshalLoop] at h
    cases hk : messageKey rs with
    | none => rw [hk] at h; exact absurd h (by simp)
    | some key =>
      rw [hk] at h
      cases he : enc [rs] with
      | error e => rw [he] at h; exact absurd h (by simp)
      | ok bts =>
        rw [he] at h
        cases hr : marshalLoop enc topic rest with
        | none => rw [hr] at h; exact absurd h (by simp)
        | some r =>
          rw [hr] at h
          cases r with
          | error e => exact absurd h (by simp)
          | ok msgs' =>
            simp only [Option.some.injEq, Except.ok.injEq] at h
            subst h
            obtain ⟨hlen, hprop⟩ := ih msgs' hr
            refine ⟨by simpa using hlen, ?_⟩
            intro i hi
            cases i with
            | zero =>
              obtain ⟨ils, ilsRest, sp, spRest, h1, h2, h3⟩ :=
                messageKey_some_spec rs key hk
              exact ⟨⟨key, bts, topic⟩, rs, ils, ilsRest, sp, spRest,
                by simp, by simp, h1, h2, h3, rfl⟩
            | succ j =>
              have hj : j < rest.length := by simpa using hi
              obtain ⟨m, rs', ils, ilsRest, sp, spRest, h1, h2, h3, h4, h5, h6⟩ :=
                hprop j hj
              exact ⟨m, rs', ils, ilsRest, sp, spRest, by simpa using h1,
                by simpa using h2, h3, h4, h5, h6⟩

/-- C8: whenever the native encoder's `Marshal` succeeds it emits exactly
one outbound message per top-level resource-group — the message count
equals `ResourceSpans().Len()` — and each message's key is the hex string
of that group's first span's trace id, absent when that trace id is
empty. -/
theorem C8_native_marshal_per_resource_group
    (enc : List ResourceSpans → Except GoErr GoBytes)
    (td : Traces) (topic : GoBytes) (msgs : List ProducerMessage)
    (h : otlpTracesPbMarshal enc td topic = some (.ok msgs)) :
    ∃ rss, td.orig = some rss ∧ msgs.length = rss.length ∧
      ∀ i, i < rss.length →
        ∃ m rs ils ilsRest sp spRest,
          msgs[i]? = some m ∧ rss[i]? = some rs ∧
          rs.instrumentationLibrarySpans = ils :: ilsRest ∧
          ils.spans = sp :: spRest ∧
          m.key = (if sp.traceId.IsEmpty then none
                   else some sp.traceId.HexString) ∧
          m.topic = topic := by
  cases ho : td.orig with
  | none => rw [otlpTracesPbMarshal, ho] at h; exact absurd h (by simp)
  | some rss =>
    rw [otlpTracesPbMarshal, ho] at h
    exact ⟨rss, rfl, marshalLoop_ok_spec enc topic rss msgs h⟩

/-- Witness for C8: one resource-group holding one span with a non-empty
trace id, a codec that returns fixed bytes, applied concretely. -/
theorem C8_witness :
    ∃ rss, (⟨some [singleSpanGroup (NewTraceID (List.replicate 16 1))]⟩ :
        Traces).orig = some rss ∧
      (List.length
        [(⟨some (hexEncode (List.replicate 16 1)), [9], [116]⟩ :
          ProducerMessage)]) = rss.length ∧
      ∀ i, i < rss.length →
        ∃ m rs ils ilsRest sp spRest,
          [(⟨some (hexEncode (List.replicate 16 1)), [9], [116]⟩ :
            ProducerMessage)][i]? = some m ∧ rss[i]? = some rs ∧
          rs.instrumentationLibrarySpans = ils :: ilsRest ∧
          ils.spans = sp :: spRest ∧
          m.key = (if sp.traceId.IsEmpty then none
                   else some sp.traceId.HexString) ∧
          m.topic = [116] :=
  C8_native_marshal_per_resource_group (fun _ => .ok [9])
    (⟨some [singleSpanGroup (NewTraceID (List.replicate 16 1))]⟩) [116]
    [⟨some (hexEncode (List.replicate 16 1)), [9], [116]⟩] (by decide)

/-- When every resource-group satisfies the first-span precondition, the
marshal loop never panics: it returns some result (success or a codec
error). -/
theorem marshalLoop_isSome_of_precondition
    (enc : List ResourceSpans → Except GoErr GoBytes) (topic : GoBytes)
    (rss : List ResourceSpans) (h : ∀ rs ∈ rss, hasFirstSpan rs = true) :
    ∃ r, marshalLoop enc topic rss = some r := by
  induction rss with
  | nil => exact ⟨.ok [], rfl⟩
  | cons rs rest ih =>
    have hrs : hasFirstSpan rs = true := h rs (by simp)
    cases hk : messageKey rs with
    | none =>
      have hf : hasFirstSpan rs = false := (messageKey_none_iff rs).mp hk
      rw [hrs] at hf; exact absurd hf (by simp)
    | some key =>
      obtain ⟨r, hr⟩ := ih (fun x hx => h x (by simp [hx]))
      cases he : enc [rs] with
      | error e => exact ⟨.error e, by rw [marshalLoop, hk, he]⟩
      | ok bts =>
        cases r with
        | error e =>
          exact ⟨.error e, by rw [marshalLoop, hk, he, hr]⟩
        | ok msgs =>
          exact ⟨.ok (⟨key, bts, topic⟩ :: msgs), by rw [marshalLoop, hk, he, hr]⟩

/-- When some resource-group violates the first-span precondition and the
codec itself always succeeds, the marshal loop panics (`none`). -/
theorem marshalLoop_none_of_violation
    (enc : List ResourceSpans → Except GoErr GoBytes) (topic : GoBytes)
    (rss : List ResourceSpans) (henc : ∀ x, ∃ b, enc x = .ok b)
    (h : ∃ rs ∈ rss, hasFirstSpan rs = false) :
    marshalLoop enc topic rss = none := by
  induction rss with
  | nil => obtain ⟨rs, hmem, _⟩ := h; exact absurd hmem (by simp)
  | cons rs rest ih =>
    by_cases hrs : hasFirstSpan rs = false
    · have hk : messageKey rs = none := (messageKey_none_iff rs).mpr hrs
      rw [marshalLoop, hk]
    · cases hk : messageKey rs with
      | none =>
        have hf := (messageKey_none_iff rs).mp hk
        exact absurd hf hrs
      | some key =>
        obtain ⟨bts, he⟩ := henc [rs]
        have hrest : ∃ x ∈ rest, hasFirstSpan x = false := by
          obtain ⟨x, hmem, hx⟩ := h
          rcases List.mem_cons.mp hmem with heq | hmem'
          · subst heq; exact absurd hx hrs
          · exact ⟨x, hmem', hx⟩
        rw [marshalLoop, hk, he, ih hrest]

/-- C10: the native marshaller is total exactly under its implicit
precondition. On a constructed root: if every resource-group's first
instrumentation-library group exists and is non-empty, the call returns a
result (never panics); if some resource-group violates this — zero
instrumentation-library groups, or a first group with zero spans — then
(with a codec that does not fail first) the unguarded `At(0)` indexing is
an out-of-range fault (`none`), not a returned error. -/
theorem C10_marshal_precondition
    (enc : List ResourceSpans → Except GoErr GoBytes)
    (td : Traces) (topic : GoBytes) (rss : List ResourceSpans)
    (ho : td.orig = some rss) :
    ((∀ rs ∈ rss, hasFirstSpan rs = true) →
      ∃ r, otlpTracesPbMarshal enc td topic = some r) ∧
    ((∃ rs ∈ rss, hasFirstSpan rs = false) →
      (∀ x, ∃ b, enc x = .ok b) →
      otlpTracesPbMarshal enc td topic = none) := by
  constructor
  · intro h
    obtain ⟨r, hr⟩ := marshalLoop_isSome_of_precondition enc topic rss h
    exact ⟨r, by rw [otlpTracesPbMarshal, ho]; exact hr⟩
  · intro h henc
    rw [otlpTracesPbMarshal, ho]
    exact marshalLoop_none_of_violation enc topic rss henc h

/-- Witness for C10: a good one-group input yields a result; a group with
zero instrumentation-library groups panics under an always-ok codec. -/
theorem C10_witness :
    (∃ r, otlpTracesPbMarshal (fun _ => .ok [9])
        (⟨some [singleSpanGroup (NewTraceID (List.replicate 16 1))]⟩)
        [116] = some r) ∧
    otlpTracesPbMarshal (fun _ => .ok [9])
        (⟨some [emptyResourceSpans]⟩) [116] = none :=
  ⟨(C10_marshal_precondition (fun _ => .ok [9])
      (⟨some [singleSpanGroup (NewTraceID (List.replicate 16 1))]⟩) [116]
      [singleSpanGroup (NewTraceID (List.replicate 16 1))] rfl).1
      (by intro rs hrs; simp only [List.mem_singleton] at hrs; subst hrs; decide),
   (C10_marshal_precondition (fun _ => .ok [9])
      (⟨some [emptyResourceSpans]⟩) [116] [emptyResourceSpans] rfl).2
      ⟨emptyResourceSpans, by simp, by decide⟩
      (fun x => ⟨[9], rfl⟩)⟩
